import Mathlib

/-!
Verification of the well-structure drawing pipeline (`main_origin.py`).

The development shallowly embeds the depth-mapping engine
(`DepthMappingMixin.calculate_mapped_depth`), the stratigraphy mapping step
(`StratigraphyExtractor.map_raw_data`), the continuity validator
(`StratigraphyExtractor.validate_continuity`) and the trajectory solver
(`DeviationDataExtractor.validate_deviation_data`) over exact rational
arithmetic.  Python floats are modelled by `ℚ`; the transcendental helpers
`math.radians` and `math.sin` are abstracted as function parameters `rad` and
`sinq` so that every definition stays executable; theorems that depend on
properties of the real sine state them as hypotheses, and the build-arc
identities themselves are proved over `ℝ` with `Real.sin`.

Raw JSON values that the source inspects with its duck-typed validity check
(`v is None`, `v == ''`, `str(v).lower() == 'null'`) are modelled by the
inductive type `PVal`; a Python dict key that may be absent is modelled by
`Option PVal`.
-/

namespace WellStructure

/-! ## Depth mapping table (`DepthMappingMixin`) -/

/-- One row of the stratigraphy mapping table, as loaded by
`DepthMappingMixin.load_stratigraphy_mapping`. -/
structure MappingLayer where
  topDepth_m : ℚ
  bottomDepth_m : ℚ
  mapped_top_cm : ℚ
  mapped_bottom_cm : ℚ
deriving DecidableEq

/-- The membership test of the lookup loop:
`layer['topDepth_m'] <= actual_depth_m <= layer['bottomDepth_m']`. -/
def inLayer (d : ℚ) (l : MappingLayer) : Bool :=
  decide (l.topDepth_m ≤ d) && decide (d ≤ l.bottomDepth_m)

/-- In-layer linear interpolation performed by `calculate_mapped_depth`,
including the zero-thickness guard of the source. -/
def interpLayer (d : ℚ) (l : MappingLayer) : ℚ :=
  if l.bottomDepth_m - l.topDepth_m = 0 then l.mapped_top_cm
  else
    l.mapped_top_cm +
      (d - l.topDepth_m) / (l.bottomDepth_m - l.topDepth_m) *
        (l.mapped_bottom_cm - l.mapped_top_cm)

/-- Model of `stratigraphy_mapping[-1]`: the deepest layer of a nonempty table. -/
def lastLayer : MappingLayer → List MappingLayer → MappingLayer
  | l, [] => l
  | _, b :: tl => lastLayer b tl

/-- Model of `DepthMappingMixin.calculate_mapped_depth`.  The first layer containing the
depth is interpolated into; a depth above the first layer clamps to the first
mapped top; a depth beyond the deepest bottom extrapolates proportionally from
the origin.  `none` models the `IndexError` the source raises on an empty
table. -/
def calculate_mapped_depth (d : ℚ) (m : List MappingLayer) : Option ℚ :=
  match m.find? (inLayer d) with
  | some l => some (interpLayer d l)
  | none =>
    match m with
    | [] => none
    | hd :: tl =>
      if d < hd.topDepth_m then some hd.mapped_top_cm
      else some ((lastLayer hd tl).mapped_bottom_cm * d / (lastLayer hd tl).bottomDepth_m)

/-- A single row of a validated table: real top strictly above real bottom and
a nonnegative mapped thickness. -/
def LayerOK (l : MappingLayer) : Prop :=
  l.topDepth_m < l.bottomDepth_m ∧ l.mapped_top_cm ≤ l.mapped_bottom_cm

/-- Two consecutive rows of a validated table: gapless in real depth and
cumulative in mapped depth. -/
def Adjacent (a b : MappingLayer) : Prop :=
  a.bottomDepth_m = b.topDepth_m ∧ a.mapped_bottom_cm = b.mapped_top_cm

/-- A validated stratigraphy mapping table: nonempty, rows sorted and gapless
(by adjacency), each with positive real thickness, nonnegative mapped
thickness, and cumulative mapped boundaries. -/
def ValidMapping (m : List MappingLayer) : Prop :=
  m ≠ [] ∧ (∀ l ∈ m, LayerOK l) ∧ List.Chain' Adjacent m

instance : DecidablePred LayerOK := fun l => by
  unfold LayerOK; infer_instance

instance : DecidableRel Adjacent := fun a b => by
  unfold Adjacent; infer_instance

/-! ## Stratigraphy mapping step (`StratigraphyExtractor.map_raw_data`) -/

/-- A raw stratigraphic layer (name, real top, real bottom). -/
structure RawLayer where
  name : String
  topDepth_m : ℚ
  bottomDepth_m : ℚ
deriving DecidableEq

/-- A mapped stratigraphic layer as produced by
`StratigraphyExtractor.map_raw_data`. -/
structure MappedStratLayer where
  name : String
  topDepth_m : ℚ
  bottomDepth_m : ℚ
  actual_thickness_m : ℚ
  mapped_thickness_cm : ℚ
  mapped_top_cm : ℚ
  mapped_bottom_cm : ℚ
deriving DecidableEq

/-- Model of `total_actual_thickness = sum(layer['actual_thickness_m'] ...)`. -/
def total_actual_thickness (xs : List RawLayer) : ℚ :=
  (xs.map (fun l => l.bottomDepth_m - l.topDepth_m)).sum

/-- Proportional share of one layer:
`actual_thickness / total_actual_thickness * total_mapped_thickness`. -/
def proportional_share (total budget : ℚ) (l : RawLayer) : ℚ :=
  (l.bottomDepth_m - l.topDepth_m) / total * budget

/-- Proportional share followed by the minimum-thickness clamp
(`if mapped_thickness_cm < min_thickness: ... = min_thickness`). -/
def clamped_thickness (total budget minT : ℚ) (l : RawLayer) : ℚ :=
  if proportional_share total budget l < minT then minT
  else proportional_share total budget l

/-- The cumulative-boundary assignment loop of `map_raw_data`: walk the layers
in order, assigning `mapped_top_cm`/`mapped_bottom_cm` by running sum. -/
def assignLayers (total budget minT : ℚ) : ℚ → List RawLayer → List MappedStratLayer
  | _, [] => []
  | top, l :: ls =>
    let th := clamped_thickness total budget minT l
    ⟨l.name, l.topDepth_m, l.bottomDepth_m, l.bottomDepth_m - l.topDepth_m,
      th, top, top + th⟩ :: assignLayers total budget minT (top + th) ls

/-- The mapping computation of `StratigraphyExtractor.map_raw_data`:
proportional distribution of the budget, minimum-thickness clamp without
renormalisation, then cumulative boundaries starting at 0. -/
def map_raw_data (budget minT : ℚ) (xs : List RawLayer) : List MappedStratLayer :=
  assignLayers (total_actual_thickness xs) budget minT 0 xs

/-! ## Continuity validation (`StratigraphyExtractor.validate_continuity`) -/

/-- A stratigraphy entry as found in the JSON input: each required dict key
may be absent. -/
structure JLayer where
  name : Option String
  topDepth_m : Option ℚ
  bottomDepth_m : Option ℚ
deriving DecidableEq

/-- Presence of all required fields of one layer
(`required_fields = ['name', 'topDepth_m', 'bottomDepth_m']`). -/
def layerFieldsOK (l : JLayer) : Bool :=
  l.name.isSome && l.topDepth_m.isSome && l.bottomDepth_m.isSome

/-- Model of `sorted(stratigraphy, key=lambda x: x['topDepth_m'])`: a stable sort on
the top depth (Python's `sorted` is stable, as is insertion sort). -/
def sortLayers (xs : List JLayer) : List JLayer :=
  xs.insertionSort (fun a b => a.topDepth_m.getD 0 ≤ b.topDepth_m.getD 0)

/-- The per-layer loop of `validate_continuity` over the sorted list: required
fields, `top < bottom`, and exact adjacency `current.bottom == next.top`. -/
def checkLayers : List JLayer → Except String Bool
  | [] => .ok true
  | [l] =>
    if !layerFieldsOK l then .error "missing required field"
    else if l.bottomDepth_m.getD 0 ≤ l.topDepth_m.getD 0 then
      .error "topDepth_m must be smaller than bottomDepth_m"
    else .ok true
  | l :: l2 :: rest =>
    if !layerFieldsOK l then .error "missing required field"
    else if l.bottomDepth_m.getD 0 ≤ l.topDepth_m.getD 0 then
      .error "topDepth_m must be smaller than bottomDepth_m"
    else if l.bottomDepth_m.getD 0 ≠ l2.topDepth_m.getD 0 then
      .error "continuity failure between adjacent layers"
    else checkLayers (l2 :: rest)

/-- Model of `StratigraphyExtractor.validate_continuity`.  An empty list is rejected;
a missing sort key (`topDepth_m`) aborts the sort itself; then the sorted
list is checked layer by layer. -/
def validate_continuity (xs : List JLayer) : Except String Bool :=
  if xs.isEmpty then .error "empty stratigraphy data"
  else if !(xs.all fun l => l.topDepth_m.isSome) then
    .error "sort key topDepth_m missing"
  else checkLayers (sortLayers xs)

/-! ## Trajectory solver (`DeviationDataExtractor.validate_deviation_data`) -/

/-- A raw JSON scalar as inspected by the source's duck-typed validity check:
`None`, the empty string, the literal string `'null'`, or a number. -/
inductive PVal where
  | null
  | emptyStr
  | nullStr
  | num (q : ℚ)
deriving DecidableEq

/-- The source's validity test
(`v is not None and v != '' and str(v).lower() != 'null'`), extracting the
numeric value of a present and valid field. -/
def getValid (v : Option PVal) : Option ℚ :=
  match v with
  | some (.num q) => some q
  | _ => none

/-- Whether a raw value passes the validity test. -/
def PVal.isValid : PVal → Bool
  | .num _ => true
  | _ => false

/-- The `deviationData` record; each `Option` is dict-key presence and each
`PVal` the stored raw value. -/
structure DeviationData where
  kickoffPoint_m : Option PVal
  deviationAngle_deg : Option PVal
  targetPointA_m : Option PVal
  targetPointA_verticalDepth_m : Option PVal
  targetPointB_m : Option PVal
  REAL_kickoffPoint_m : Option PVal
  DistanceAB_m : Option PVal
deriving DecidableEq

/-- Model of `well_data.get('wellType', '').strip().lower()`: drop surrounding
whitespace and lowercase (spelled out over the character list so that the
definition reduces). -/
def normType (s : String) : String :=
  ⟨((s.data.dropWhile Char.isWhitespace).reverse.dropWhile Char.isWhitespace).reverse.map
      Char.toLower⟩

/-- The kickoff fallback chain: if `kickoffPoint_m` is invalid, use
`REAL_kickoffPoint_m` whenever the key is present (the source copies it with
no validity check), else `totalDepth_m` when positive, else `0`. -/
def fallbackKickoff (td : ℚ) (d : DeviationData) : DeviationData :=
  match getValid d.kickoffPoint_m with
  | some _ => d
  | none =>
    match d.REAL_kickoffPoint_m with
    | some v => { d with kickoffPoint_m := some v }
    | none =>
      if 0 < td then { d with kickoffPoint_m := some (.num td) }
      else { d with kickoffPoint_m := some (.num 0) }

/-- Angle resolution of `validate_deviation_data`: defaulting by well type
(horizontal 90, deviated 45, otherwise 0), the deviated low-angle override
(≤ 1 degree becomes 30), the range check, and the horizontal soft warning.
Returns the resolved angle together with the soft-warning flag. -/
def resolveAngle (wt : String) (angle : Option PVal) : Except String (ℚ × Bool) :=
  let a1 : ℚ :=
    match getValid angle with
    | none =>
      if wt = "horizontal well" then 90
      else if wt = "deviated well" then 45
      else 0
    | some a => a
  let a2 : ℚ := if wt = "deviated well" ∧ a1 ≤ 1 then 30 else a1
  if ¬(0 ≤ a2 ∧ a2 ≤ 90) then .error "deviation angle must be within 0-90 degrees"
  else .ok (a2, wt = "horizontal well" ∧ a2 < 90)

/-- Store the resolved angle back into the record
(`deviation_data['deviationAngle_deg'] = deviation_angle`). -/
def setAngle (d : DeviationData) (a : ℚ) : DeviationData :=
  { d with deviationAngle_deg := some (.num a) }

/-- Build-arc solve branch: vertical depth of A from kickoff and A
(`R = (targetA - kickoff)/θ; vertical = R*sin(θ) + kickoff`). -/
def solve_vertical {K : Type*} [Field K] (theta s k A : K) : K :=
  (A - k) / theta * s + k

/-- Build-arc solve branch: A from kickoff and vertical depth of A
(`R = (vertical - kickoff)/sin(θ); targetA = R*θ + kickoff`). -/
def solve_targetA {K : Type*} [Field K] (theta s k V : K) : K :=
  (V - k) / s * theta + k

/-- Build-arc solve branch: kickoff from A and vertical depth of A
(`kickoff = (targetA*sin(θ) - vertical*θ) / (sin(θ) - θ)`). -/
def solve_kickoff {K : Type*} [Field K] (theta s A V : K) : K :=
  (A * s - V * theta) / (s - theta)

/-- The meter-space geometric stage of `validate_deviation_data`: with at
least two of {kickoff, targetA, targetA_vertical} valid, complete the third
via the build-arc equations; each branch is guarded against its degenerate
denominator and otherwise skipped with only a console warning. -/
def geomStage (rad sinq : ℚ → ℚ) (a2 : ℚ) (d : DeviationData) : DeviationData :=
  let theta := rad a2
  let s := sinq theta
  match getValid d.kickoffPoint_m, getValid d.targetPointA_m,
      getValid d.targetPointA_verticalDepth_m with
  | some k, some A, none =>
    if theta ≠ 0 ∧ s ≠ 0 then
      { d with targetPointA_verticalDepth_m := some (.num (solve_vertical theta s k A)) }
    else d
  | some k, none, some V =>
    if theta ≠ 0 ∧ s ≠ 0 then
      { d with targetPointA_m := some (.num (solve_targetA theta s k V)) }
    else d
  | none, some A, some V =>
    if s ≠ theta ∧ s ≠ 0 then
      { d with kickoffPoint_m := some (.num (solve_kickoff theta s A V)) }
    else d
  | _, _, _ => d

/-- The {targetA, targetB, DistanceAB} stage of `validate_deviation_data`:
fewer than two valid members is an error; two valid members complete the
third linearly; three valid members are cross-checked within 0.001 m and
left unchanged when consistent. -/
def abStage (d : DeviationData) : Except String DeviationData :=
  match getValid d.targetPointA_m, getValid d.targetPointB_m,
      getValid d.DistanceAB_m with
  | some A, some B, some ab =>
    if |(|B - A|) - ab| > 1/1000 then
      .error "inconsistent AB distance"
    else .ok d
  | some A, some B, none => .ok { d with DistanceAB_m := some (.num (|B - A|)) }
  | some A, none, some ab => .ok { d with targetPointB_m := some (.num (A + ab)) }
  | none, some B, some ab => .ok { d with targetPointA_m := some (.num (B - ab)) }
  | _, _, _ => .error "at least two of targetA, targetB, DistanceAB required"

/-- The final ordering check `kickoff < targetA <= targetB`.  `kp0` is the
*local* kickoff variable of the source, read from the record right after the
fallback stage: if the geometric stage later rewrote the dict entry, the
stale local is still compared, and a non-numeric local raises (`TypeError`
in Python). -/
def orderingStage (kp0 : PVal) (d : DeviationData) : Except String Unit :=
  match kp0, getValid d.targetPointA_m, getValid d.targetPointB_m with
  | .num k, some A, some B =>
    if k < A ∧ A ≤ B then .ok ()
    else .error "depth ordering violated"
  | _, _, _ => .error "TypeError: comparison with non-numeric value"

/-- Model of `DeviationDataExtractor.validate_deviation_data` (meter-space pass),
parameterised by the numeric models `rad` of `math.radians` and `sinq` of
`math.sin`.  `wt` is the raw well-type string and `td` the total depth read
from the well record. -/
def validate_deviation_data (rad sinq : ℚ → ℚ) (wt : String) (td : ℚ)
    (d : DeviationData) : Except String DeviationData :=
  if normType wt = "straight well" then
    .ok { d with
      deviationAngle_deg := some (.num 0),
      kickoffPoint_m := some (.num td),
      targetPointA_m := some (.num td),
      targetPointA_verticalDepth_m := some (.num td),
      REAL_kickoffPoint_m := some (.num td),
      targetPointB_m := some (.num td),
      DistanceAB_m := some (.num 0) }
  else
    let d1 := fallbackKickoff td d
    match resolveAngle (normType wt) d1.deviationAngle_deg with
    | .error e => .error e
    | .ok (a2, _warn) =>
      let d2 := setAngle d1 a2
      let d3 := geomStage rad sinq a2 d2
      match abStage d3 with
      | .error e => .error e
      | .ok d4 =>
        match orderingStage (d1.kickoffPoint_m.getD .null) d4 with
        | .error e => .error e
        | .ok _ => .ok d4

/-- Whether an `Except` result is a success. -/
def exOk {ε α : Type*} : Except ε α → Bool
  | .ok _ => true
  | .error _ => false

/-- Concrete rational stand-in for `math.radians` used to evaluate the solver
at sample inputs (any function with `radC 0 = 0` and `radC 30 = 1/2` serves;
the theorems about the solver are generic in `rad`).  `math.radians` itself
satisfies both properties up to the scaling of the sample. -/
def radC : ℚ → ℚ := fun a => a / 60

/-- Concrete rational stand-in for `math.sin` used to evaluate the solver at
sample inputs (any function with `sinC 0 = 0` and `sinC x ∉ {0, x}` for the
sampled `x ≠ 0` serves; the theorems about the solver are generic in
`sinq`, and `math.sin` satisfies those properties at the sampled points). -/
def sinC : ℚ → ℚ := fun x => x / 2

/-- Sample record: kickoff and targetA known, vertical depth unknown, with a
present angle of 0 degrees (a degenerate build-arc denominator). -/
def degenerateInput : DeviationData :=
  ⟨some (.num 1000), some (.num 0), some (.num 2000), none, some (.num 2500),
    none, none⟩

/-- Sample record: `kickoffPoint_m` and `REAL_kickoffPoint_m` both present
with JSON `null`, while targetA and its vertical depth are known. -/
def nullRealKickoffInput : DeviationData :=
  ⟨some .null, some (.num 30), some (.num 2000), some (.num 1900),
    some (.num 2500), some .null, none⟩

/-! ## Basic facts about raw values -/

theorem getValid_eq_some {v : Option PVal} {q : ℚ} :
    getValid v = some q ↔ v = some (.num q) := by
  cases v with
  | none => simp [getValid]
  | some p => cases p <;> simp [getValid]

theorem isValid_true_iff {v : PVal} : v.isValid = true ↔ ∃ q, v = .num q := by
  cases v <;> simp [PVal.isValid]

/-! ## C7: straight-well defaults -/

/-- C7: for a well whose normalized type is `"straight well"` with total depth
`td`, `validate_deviation_data` overwrites the record with angle 0,
kickoff = targetA = targetA_vertical = targetB = REAL_kickoff = td and
DistanceAB = 0, and returns success unconditionally — in particular the
`kickoff < targetA <= targetB` ordering check is never applied (the returned
record itself has kickoff = targetA). -/
theorem straight_well_defaults (rad sinq : ℚ → ℚ) (wt : String) (td : ℚ)
    (d : DeviationData) (h : normType wt = "straight well") :
    validate_deviation_data rad sinq wt td d =
      .ok { d with
        deviationAngle_deg := some (.num 0),
        kickoffPoint_m := some (.num td),
        targetPointA_m := some (.num td),
        targetPointA_verticalDepth_m := some (.num td),
        REAL_kickoffPoint_m := some (.num td),
        targetPointB_m := some (.num td),
        DistanceAB_m := some (.num 0) } := by
  unfold validate_deviation_data
  rw [h]
  simp

/-- Witness for C7 at a concrete input: well type `"  Straight WELL "` (case
and surrounding space are irrelevant), total depth 3000, empty record. -/
theorem straight_well_defaults_witness :
    normType "  Straight WELL " = "straight well" ∧
    validate_deviation_data radC sinC "  Straight WELL " 3000
        ⟨none, none, none, none, none, none, none⟩ =
      .ok ⟨some (.num 3000), some (.num 0), some (.num 3000), some (.num 3000),
        some (.num 3000), some (.num 3000), some (.num 0)⟩ :=
  ⟨by decide,
    straight_well_defaults radC sinC "  Straight WELL " 3000
      ⟨none, none, none, none, none, none, none⟩ (by decide)⟩

/-! ## C8: angle defaulting policy -/

/-- C8 (amended): the angle-resolution step of `validate_deviation_data`.  A
deviated well with a missing angle (absent key, `None`, empty string or the
string `"null"`) resolves to 45; a deviated well with a present angle ≤ 1
resolves to 30; a horizontal well with a missing angle resolves to 90; a
horizontal well with a present angle in `[0, 90)` keeps its angle and only
raises the soft-warning flag.  (The original claim is refuted for a present
horizontal angle below 0; see the counterexample.) -/
theorem resolveAngle_policy :
    (resolveAngle "deviated well" none = .ok (45, false)) ∧
    (∀ v : PVal, v.isValid = false →
      resolveAngle "deviated well" (some v) = .ok (45, false)) ∧
    (∀ a : ℚ, a ≤ 1 → resolveAngle "deviated well" (some (.num a)) = .ok (30, false)) ∧
    (resolveAngle "horizontal well" none = .ok (90, false)) ∧
    (∀ a : ℚ, 0 ≤ a → a < 90 →
      resolveAngle "horizontal well" (some (.num a)) = .ok (a, true)) := by
  have h1 : ("deviated well" : String) ≠ "horizontal well" := by decide
  have h2 : ("horizontal well" : String) ≠ "deviated well" := by decide
  refine ⟨?_, ?_, ?_, ?_, ?_⟩
  · norm_num [resolveAngle, getValid, h1]
  · intro v hv
    cases v <;> simp [PVal.isValid] at hv ⊢ <;> norm_num [resolveAngle, getValid, h1]
  · intro a ha
    norm_num [resolveAngle, getValid, ha, h1]
  · norm_num [resolveAngle, getValid, h2]
  · intro a h0 h90
    norm_num [resolveAngle, getValid, h2, h0, h90, h90.le]

/-- Counterexample to C8 as stated: a horizontal well with a present angle of
-1 degrees (an angle "below 90°") is rejected by the range check rather than
producing only a soft warning. -/
theorem resolveAngle_negative_horizontal_rejected :
    resolveAngle "horizontal well" (some (.num (-1))) =
      .error "deviation angle must be within 0-90 degrees" := by
  have h2 : ("horizontal well" : String) ≠ "deviated well" := by decide
  norm_num [resolveAngle, getValid, h2]

/-- Witness for C8 (amended) at concrete angles: deviated with 0.5 resolves
to 30; horizontal with 45 keeps 45 with the soft-warning flag. -/
theorem resolveAngle_policy_witness :
    resolveAngle "deviated well" (some (.num (1/2))) = .ok (30, false) ∧
    resolveAngle "horizontal well" (some (.num 45)) = .ok (45, true) :=
  ⟨resolveAngle_policy.2.2.1 (1/2) (by norm_num),
    resolveAngle_policy.2.2.2.2 45 (by norm_num) (by norm_num)⟩

/-! ## C6: the {targetA, targetB, DistanceAB} triple -/

/-- C6: with fewer than two valid members of {targetA, targetB, DistanceAB}
the stage fails; with exactly two the third is completed by the linear
relations `AB = |B - A|`, `B = A + AB`, `A = B - AB`; with all three supplied
the stage fails exactly when `||B - A| - AB| > 0.001` and otherwise keeps the
record unchanged. -/
theorem abStage_spec (d : DeviationData) (A B ab : ℚ) :
    ((getValid d.targetPointA_m = none → getValid d.targetPointB_m = none →
        exOk (abStage d) = false) ∧
      (getValid d.targetPointA_m = none → getValid d.DistanceAB_m = none →
        exOk (abStage d) = false) ∧
      (getValid d.targetPointB_m = none → getValid d.DistanceAB_m = none →
        exOk (abStage d) = false)) ∧
    (getValid d.targetPointA_m = some A → getValid d.targetPointB_m = some B →
      getValid d.DistanceAB_m = none →
      abStage d = .ok { d with DistanceAB_m := some (.num (|B - A|)) }) ∧
    (getValid d.targetPointA_m = some A → getValid d.targetPointB_m = none →
      getValid d.DistanceAB_m = some ab →
      abStage d = .ok { d with targetPointB_m := some (.num (A + ab)) }) ∧
    (getValid d.targetPointA_m = none → getValid d.targetPointB_m = some B →
      getValid d.DistanceAB_m = some ab →
      abStage d = .ok { d with targetPointA_m := some (.num (B - ab)) }) ∧
    (getValid d.targetPointA_m = some A → getValid d.targetPointB_m = some B →
      getValid d.DistanceAB_m = some ab →
      ((abStage d = .ok d ↔ |(|B - A|) - ab| ≤ 1/1000) ∧
        (|(|B - A|) - ab| > 1/1000 → exOk (abStage d) = false))) := by
  refine ⟨⟨?_, ?_, ?_⟩, ?_, ?_, ?_, ?_⟩
  · intro hA hB
    rcases hab : getValid d.DistanceAB_m with _ | v <;>
      simp [abStage, hA, hB, hab, exOk]
  · intro hA hab
    rcases hB : getValid d.targetPointB_m with _ | v <;>
      simp [abStage, hA, hB, hab, exOk]
  · intro hB hab
    rcases hA : getValid d.targetPointA_m with _ | v <;>
      simp [abStage, hA, hB, hab, exOk]
  · intro hA hB hab
    simp [abStage, hA, hB, hab]
  · intro hA hB hab
    simp [abStage, hA, hB, hab]
  · intro hA hB hab
    simp [abStage, hA, hB, hab]
  · intro hA hB hab
    have e : abStage d =
        if |(|B - A|) - ab| > 1/1000 then .error "inconsistent AB distance"
        else .ok d := by
      simp only [abStage, hA, hB, hab]
    constructor
    · constructor
      · intro h
        by_contra hc
        rw [e, if_pos (not_le.mp hc)] at h
        simp at h
      · intro h
        rw [e, if_neg (not_lt.mpr h)]
    · intro h
      rw [e, if_pos h]
      rfl

/-- Witness for C6 at concrete values: A = 2000 and AB = 500 known, B
completed to 2500. -/
theorem abStage_spec_witness :
    abStage ⟨none, none, some (.num 2000), none, none, none, some (.num 500)⟩ =
      .ok ⟨none, none, some (.num 2000), none, some (.num 2500), none,
        some (.num 500)⟩ := by
  have h := (abStage_spec
    ⟨none, none, some (.num 2000), none, none, none, some (.num 500)⟩
    2000 0 500).2.2.1 (by norm_num [getValid]) (by norm_num [getValid])
    (by norm_num [getValid])
  rw [h]
  norm_num

/-! ## C5: degenerate build-arc denominators -/

/-- C5 (amended): in the meter-space pass, when two members of the
{kickoff, targetA, targetA_vertical} triple are known but the needed branch's
denominator is degenerate (θ = 0 or sin θ = 0, resp. sin θ = θ or sin θ = 0
for the kickoff-reconstruction branch), the geometric stage skips the
computation and leaves the record unchanged — no error is raised, and
validation continues with the remaining checks.  (The original claim — that
an error is surfaced — is refuted by the counterexample below.) -/
theorem geomStage_degenerate_skips (rad sinq : ℚ → ℚ) (a2 : ℚ) (d : DeviationData) :
    (getValid d.targetPointA_verticalDepth_m = none →
      ¬(rad a2 ≠ 0 ∧ sinq (rad a2) ≠ 0) → geomStage rad sinq a2 d = d) ∧
    (getValid d.targetPointA_m = none →
      ¬(rad a2 ≠ 0 ∧ sinq (rad a2) ≠ 0) → geomStage rad sinq a2 d = d) ∧
    (getValid d.kickoffPoint_m = none →
      ¬(sinq (rad a2) ≠ rad a2 ∧ sinq (rad a2) ≠ 0) → geomStage rad sinq a2 d = d) := by
  refine ⟨?_, ?_, ?_⟩
  · intro hv hn
    rcases hk : getValid d.kickoffPoint_m with _ | k <;>
      rcases ha : getValid d.targetPointA_m with _ | A <;>
        simp [geomStage, hk, ha, hv, hn]
  · intro ha hn
    rcases hk : getValid d.kickoffPoint_m with _ | k <;>
      rcases hv : getValid d.targetPointA_verticalDepth_m with _ | V <;>
        simp [geomStage, hk, ha, hv, hn]
  · intro hk hn
    rcases ha : getValid d.targetPointA_m with _ | A <;>
      rcases hv : getValid d.targetPointA_verticalDepth_m with _ | V <;>
        simp [geomStage, hk, ha, hv, hn]

/-- Counterexample to C5 as stated: a horizontal well with a present angle of
0 degrees, kickoff 1000 and targetA 2000 known, vertical depth unknown — the
needed denominator θ is degenerate, yet `validate_deviation_data` succeeds
(completing AB from A = 2000 and B = 2500) instead of raising an error.
Evaluated with stand-ins agreeing with `math.radians`/`math.sin` at the only
queried point: `radC 0 = 0` and `sinC 0 = 0`. -/
theorem degenerate_angle_validation_succeeds :
    validate_deviation_data radC sinC "horizontal well" 3000 degenerateInput =
      .ok { degenerateInput with DistanceAB_m := some (.num 500) } := by
  have h1 : normType "horizontal well" ≠ "straight well" := by decide
  have h2 : normType "horizontal well" = "horizontal well" := by decide
  have h3 : ("horizontal well" : String) ≠ "deviated well" := by decide
  unfold validate_deviation_data
  rw [if_neg h1, h2]
  norm_num [degenerateInput, fallbackKickoff, resolveAngle, getValid, h3,
    setAngle, geomStage, radC, sinC, abStage, orderingStage]

/-- Witness for C5 (amended): the kickoff-and-targetA branch with θ = 0 is
skipped, leaving the record unchanged. -/
theorem geomStage_degenerate_skips_witness :
    geomStage radC sinC 0 degenerateInput = degenerateInput :=
  (geomStage_degenerate_skips radC sinC 0 degenerateInput).1
    (by norm_num [degenerateInput, getValid])
    (by norm_num [radC, sinC])

/-! ## C10: the kickoff fallback chain -/

theorem geomStage_kickoff_of_valid (rad sinq : ℚ → ℚ) (a2 : ℚ) (x : DeviationData)
    (k : ℚ) (hk : getValid x.kickoffPoint_m = some k) :
    (geomStage rad sinq a2 x).kickoffPoint_m = x.kickoffPoint_m := by
  rcases ha : getValid x.targetPointA_m with _ | A <;>
    rcases hv : getValid x.targetPointA_verticalDepth_m with _ | V <;>
      simp only [geomStage, hk, ha, hv] <;> (try split) <;> rfl

/-- C10 (amended): whenever `REAL_kickoffPoint_m` is absent or holds a valid
number, the kickoff fallback chain leaves `kickoffPoint_m` a valid number, so
the meter-space geometric stage can never take the branch that reconstructs
the kickoff from targetA and its vertical depth: the kickoff entry survives
the geometric stage unchanged.  (The original claim — that this holds for
*every* record — is refuted by the counterexample below, where
`REAL_kickoffPoint_m` is present but null.) -/
theorem kickoff_fallback_valid (td : ℚ) (d : DeviationData)
    (hreal : ∀ v, d.REAL_kickoffPoint_m = some v → v.isValid = true) :
    (∃ k, getValid ((fallbackKickoff td d).kickoffPoint_m) = some k) ∧
    (∀ rad sinq a2,
      (geomStage rad sinq a2 (setAngle (fallbackKickoff td d) a2)).kickoffPoint_m =
        (fallbackKickoff td d).kickoffPoint_m) := by
  have hvalid : ∃ k, getValid ((fallbackKickoff td d).kickoffPoint_m) = some k := by
    rcases hk : getValid d.kickoffPoint_m with _ | q
    · rcases hr : d.REAL_kickoffPoint_m with _ | v
      · by_cases htd : 0 < td
        · exact ⟨td, by simp only [fallbackKickoff, hk, hr]; rw [if_pos htd]; simp [getValid]⟩
        · exact ⟨0, by simp only [fallbackKickoff, hk, hr]; rw [if_neg htd]; simp [getValid]⟩
      · rcases isValid_true_iff.mp (hreal v hr) with ⟨q, rfl⟩
        exact ⟨q, by simp only [fallbackKickoff, hk, hr]; simp [getValid]⟩
    · exact ⟨q, by simp only [fallbackKickoff, hk]⟩
  refine ⟨hvalid, ?_⟩
  intro rad sinq a2
  rcases hvalid with ⟨k, hk⟩
  have hk2 : getValid (setAngle (fallbackKickoff td d) a2).kickoffPoint_m = some k := by
    simpa [setAngle] using hk
  exact (geomStage_kickoff_of_valid rad sinq a2 _ k hk2).trans rfl

/-- Counterexample to C10 as stated: with `kickoffPoint_m` null and
`REAL_kickoffPoint_m` present but null, the fallback copies the null value
without a validity check, `kickoff` is *not* among the valid geometric
parameters, and the meter-space pass does take the kickoff-reconstruction
branch (computing 1800 from targetA = 2000, vertical = 1900 at 30 degrees
with `radC 30 = 1/2`, `sinC (1/2) = 1/4`); the full validation then fails at
the ordering comparison against the stale non-numeric local. -/
theorem kickoff_fallback_hole :
    getValid ((fallbackKickoff 3000 nullRealKickoffInput).kickoffPoint_m) = none ∧
    (geomStage radC sinC 30
        (setAngle (fallbackKickoff 3000 nullRealKickoffInput) 30)).kickoffPoint_m =
      some (.num 1800) ∧
    exOk (validate_deviation_data radC sinC "deviated well" 3000
      nullRealKickoffInput) = false := by
  have h1 : normType "deviated well" ≠ "straight well" := by decide
  have h2 : normType "deviated well" = "deviated well" := by decide
  have h3 : ("deviated well" : String) ≠ "horizontal well" := by decide
  refine ⟨by norm_num [nullRealKickoffInput, fallbackKickoff, getValid], ?_, ?_⟩
  · norm_num [nullRealKickoffInput, fallbackKickoff, getValid, setAngle, geomStage,
      radC, sinC, solve_kickoff]
  · unfold validate_deviation_data
    rw [if_neg h1, h2]
    norm_num [nullRealKickoffInput, fallbackKickoff, resolveAngle, getValid, h3,
      setAngle, geomStage, radC, sinC, solve_kickoff, abStage, orderingStage, exOk]

/-- Witness for C10 (amended) at a concrete record with
`REAL_kickoffPoint_m` absent: the fallback yields the total depth 3000 and
the geometric stage leaves the kickoff entry unchanged. -/
theorem kickoff_fallback_valid_witness :
    (∃ k, getValid ((fallbackKickoff 3000
      (⟨some .null, none, some (.num 2000), some (.num 1900), none, none,
        none⟩ : DeviationData)).kickoffPoint_m) = some k) ∧
    (∀ rad sinq a2,
      (geomStage rad sinq a2 (setAngle (fallbackKickoff 3000
        (⟨some .null, none, some (.num 2000), some (.num 1900), none, none,
          none⟩ : DeviationData)) a2)).kickoffPoint_m =
      (fallbackKickoff 3000
        (⟨some .null, none, some (.num 2000), some (.num 1900), none, none,
          none⟩ : DeviationData)).kickoffPoint_m) :=
  kickoff_fallback_valid 3000 _ (by intro v hv; simp at hv)

/-! ## C1/C2: the depth-mapping point query -/

theorem inLayer_true {d : ℚ} {l : MappingLayer} (h1 : l.topDepth_m ≤ d)
    (h2 : d ≤ l.bottomDepth_m) : inLayer d l = true := by
  simp [inLayer, h1, h2]

theorem inLayer_false_of_bottom_lt {d : ℚ} {l : MappingLayer}
    (h : l.bottomDepth_m < d) : inLayer d l = false := by
  simp [inLayer, not_le.mpr h]

theorem calculate_head (d : ℚ) (hd : MappingLayer) (tl : List MappingLayer)
    (h1 : hd.topDepth_m ≤ d) (h2 : d ≤ hd.bottomDepth_m) :
    calculate_mapped_depth d (hd :: tl) = some (interpLayer d hd) := by
  unfold calculate_mapped_depth
  rw [List.find?_cons_of_pos tl (inLayer_true h1 h2)]

theorem calculate_skip (d : ℚ) (hd b : MappingLayer) (tl : List MappingLayer)
    (hlt : hd.topDepth_m < hd.bottomDepth_m) (hadj : hd.bottomDepth_m = b.topDepth_m)
    (hda : hd.bottomDepth_m < d) :
    calculate_mapped_depth d (hd :: b :: tl) = calculate_mapped_depth d (b :: tl) := by
  unfold calculate_mapped_depth
  rw [List.find?_cons_of_neg _ (by simp [inLayer_false_of_bottom_lt hda])]
  cases hf : (b :: tl).find? (inLayer d) with
  | some l => simp [hf]
  | none =>
    simp only [hf]
    have h1 : ¬ d < hd.topDepth_m := by push_neg; linarith
    have h2 : ¬ d < b.topDepth_m := by push_neg; rw [← hadj]; exact hda.le
    rw [if_neg h1, if_neg h2]
    rfl

theorem interpLayer_mono (l : MappingLayer) (hl : LayerOK l) {d1 d2 : ℚ}
    (h : d1 ≤ d2) : interpLayer d1 l ≤ interpLayer d2 l := by
  have hΔ : 0 < l.bottomDepth_m - l.topDepth_m := sub_pos.mpr hl.1
  have hm : 0 ≤ l.mapped_bottom_cm - l.mapped_top_cm := sub_nonneg.mpr hl.2
  unfold interpLayer
  rw [if_neg (ne_of_gt hΔ), if_neg (ne_of_gt hΔ)]
  have hdiv : (d1 - l.topDepth_m) / (l.bottomDepth_m - l.topDepth_m) ≤
      (d2 - l.topDepth_m) / (l.bottomDepth_m - l.topDepth_m) := by
    gcongr
  exact add_le_add_left (mul_le_mul_of_nonneg_right hdiv hm) _

theorem interpLayer_ge_mtop (l : MappingLayer) (hl : LayerOK l) {d : ℚ}
    (h : l.topDepth_m ≤ d) : l.mapped_top_cm ≤ interpLayer d l := by
  have hΔ : 0 < l.bottomDepth_m - l.topDepth_m := sub_pos.mpr hl.1
  have he : interpLayer l.topDepth_m l = l.mapped_top_cm := by
    unfold interpLayer
    rw [if_neg (ne_of_gt hΔ)]
    simp
  rw [← he]
  exact interpLayer_mono l hl h

theorem interpLayer_le_mbot (l : MappingLayer) (hl : LayerOK l) {d : ℚ}
    (h : d ≤ l.bottomDepth_m) : interpLayer d l ≤ l.mapped_bottom_cm := by
  have hΔ : 0 < l.bottomDepth_m - l.topDepth_m := sub_pos.mpr hl.1
  have he : interpLayer l.bottomDepth_m l = l.mapped_bottom_cm := by
    unfold interpLayer
    rw [if_neg (ne_of_gt hΔ), div_self (ne_of_gt hΔ)]
    ring
  rw [← he]
  exact interpLayer_mono l hl h

theorem ValidMapping.tail2 {hd b : MappingLayer} {tl : List MappingLayer}
    (h : ValidMapping (hd :: b :: tl)) : ValidMapping (b :: tl) :=
  ⟨List.cons_ne_nil _ _, fun l hl => h.2.1 l (List.mem_cons_of_mem _ hl),
    (List.chain'_cons.mp h.2.2).2⟩

theorem calculate_lower (d : ℚ) :
    ∀ (tl : List MappingLayer) (hd : MappingLayer), ValidMapping (hd :: tl) →
      hd.topDepth_m ≤ d → d ≤ (lastLayer hd tl).bottomDepth_m →
      ∀ v, calculate_mapped_depth d (hd :: tl) = some v → hd.mapped_top_cm ≤ v := by
  intro tl
  induction tl with
  | nil =>
    intro hd hv h1 h2 v he
    have hok : LayerOK hd := hv.2.1 hd (by simp)
    rw [calculate_head d hd [] h1 h2] at he
    injection he with he'
    rw [← he']
    exact interpLayer_ge_mtop hd hok h1
  | cons b tl ih =>
    intro hd hv h1 h2 v he
    have hok : LayerOK hd := hv.2.1 hd (by simp)
    have hadj : Adjacent hd b := (List.chain'_cons.mp hv.2.2).1
    by_cases hcase : d ≤ hd.bottomDepth_m
    · rw [calculate_head d hd (b :: tl) h1 hcase] at he
      injection he with he'
      rw [← he']
      exact interpLayer_ge_mtop hd hok h1
    · push_neg at hcase
      rw [calculate_skip d hd b tl hok.1 hadj.1 hcase] at he
      have h1' : b.topDepth_m ≤ d := hadj.1 ▸ hcase.le
      have hge := ih b hv.tail2 h1' h2 v he
      calc hd.mapped_top_cm ≤ hd.mapped_bottom_cm := hok.2
        _ = b.mapped_top_cm := hadj.2
        _ ≤ v := hge

theorem calculate_mono_aux (d1 d2 : ℚ) (h12 : d1 < d2) :
    ∀ (tl : List MappingLayer) (hd : MappingLayer), ValidMapping (hd :: tl) →
      hd.topDepth_m ≤ d1 → d2 ≤ (lastLayer hd tl).bottomDepth_m →
      ∀ v1 v2, calculate_mapped_depth d1 (hd :: tl) = some v1 →
        calculate_mapped_depth d2 (hd :: tl) = some v2 → v1 ≤ v2 := by
  intro tl
  induction tl with
  | nil =>
    intro hd hv h1 h2 v1 v2 e1 e2
    have hok : LayerOK hd := hv.2.1 hd (by simp)
    rw [calculate_head d1 hd [] h1 (le_trans h12.le h2)] at e1
    rw [calculate_head d2 hd [] (le_trans h1 h12.le) h2] at e2
    injection e1 with e1'
    injection e2 with e2'
    rw [← e1', ← e2']
    exact interpLayer_mono hd hok h12.le
  | cons b tl ih =>
    intro hd hv h1 h2 v1 v2 e1 e2
    have hok : LayerOK hd := hv.2.1 hd (by simp)
    have hadj : Adjacent hd b := (List.chain'_cons.mp hv.2.2).1
    by_cases hc1 : d1 ≤ hd.bottomDepth_m
    · by_cases hc2 : d2 ≤ hd.bottomDepth_m
      · rw [calculate_head d1 hd (b :: tl) h1 hc1] at e1
        rw [calculate_head d2 hd (b :: tl) (le_trans h1 h12.le) hc2] at e2
        injection e1 with e1'
        injection e2 with e2'
        rw [← e1', ← e2']
        exact interpLayer_mono hd hok h12.le
      · push_neg at hc2
        rw [calculate_head d1 hd (b :: tl) h1 hc1] at e1
        rw [calculate_skip d2 hd b tl hok.1 hadj.1 hc2] at e2
        have h1' : b.topDepth_m ≤ d2 := hadj.1 ▸ hc2.le
        have hge := calculate_lower d2 tl b hv.tail2 h1' h2 v2 e2
        injection e1 with e1'
        calc v1 = interpLayer d1 hd := e1'.symm
          _ ≤ hd.mapped_bottom_cm := interpLayer_le_mbot hd hok hc1
          _ = b.mapped_top_cm := hadj.2
          _ ≤ v2 := hge
    · push_neg at hc1
      rw [calculate_skip d1 hd b tl hok.1 hadj.1 hc1] at e1
      rw [calculate_skip d2 hd b tl hok.1 hadj.1 (lt_trans hc1 h12)] at e2
      exact ih b hv.tail2 (hadj.1 ▸ hc1.le) h2 v1 v2 e1 e2

/-- C1: on a validated mapping table, `calculate_mapped_depth` is monotone
over the real depth range `[first.topDepth_m, last.bottomDepth_m]`: for
`d1 < d2` both in range, the mapped depth of `d1` is at most that of `d2`. -/
theorem mapped_depth_monotone (hd : MappingLayer) (tl : List MappingLayer)
    (d1 d2 : ℚ) (hv : ValidMapping (hd :: tl)) (h1 : hd.topDepth_m ≤ d1)
    (h12 : d1 < d2) (h2 : d2 ≤ (lastLayer hd tl).bottomDepth_m) (v1 v2 : ℚ)
    (e1 : calculate_mapped_depth d1 (hd :: tl) = some v1)
    (e2 : calculate_mapped_depth d2 (hd :: tl) = some v2) : v1 ≤ v2 :=
  calculate_mono_aux d1 d2 h12 tl hd hv h1 h2 v1 v2 e1 e2

/-- Witness for C1 on the table [0,100]→[0,2], [100,300]→[2,5] at the depths
50 and 150: mapped values 1 and 2.75. -/
theorem mapped_depth_monotone_witness :
    ValidMapping [⟨0, 100, 0, 2⟩, ⟨100, 300, 2, 5⟩] ∧
    calculate_mapped_depth 50 [⟨0, 100, 0, 2⟩, ⟨100, 300, 2, 5⟩] = some 1 ∧
    calculate_mapped_depth 150 [⟨0, 100, 0, 2⟩, ⟨100, 300, 2, 5⟩] = some (11/4) ∧
    (1 : ℚ) ≤ 11/4 := by
  have hv : ValidMapping [⟨0, 100, 0, 2⟩, ⟨100, 300, 2, 5⟩] := by
    simp [ValidMapping, LayerOK, Adjacent, List.chain'_cons]
    norm_num
  have e1 : calculate_mapped_depth 50 [⟨0, 100, 0, 2⟩, ⟨100, 300, 2, 5⟩] = some 1 := by
    norm_num [calculate_mapped_depth, List.find?, inLayer, interpLayer]
  have e2 : calculate_mapped_depth 150 [⟨0, 100, 0, 2⟩, ⟨100, 300, 2, 5⟩] =
      some (11/4) := by
    norm_num [calculate_mapped_depth, List.find?, inLayer, interpLayer]
  exact ⟨hv, e1, e2,
    mapped_depth_monotone ⟨0, 100, 0, 2⟩ [⟨100, 300, 2, 5⟩] 50 150 hv (by norm_num)
      (by norm_num) (by norm_num [lastLayer]) 1 (11/4) e1 e2⟩

theorem bottom_le_lastLayer :
    ∀ (tl : List MappingLayer) (hd : MappingLayer), ValidMapping (hd :: tl) →
      ∀ l ∈ hd :: tl, l.bottomDepth_m ≤ (lastLayer hd tl).bottomDepth_m := by
  intro tl
  induction tl with
  | nil =>
    intro hd _ l hl
    rcases List.mem_cons.mp hl with rfl | hl
    · exact le_refl _
    · simp at hl
  | cons b tl ih =>
    intro hd hv l hl
    have hadj : Adjacent hd b := (List.chain'_cons.mp hv.2.2).1
    have hbok : LayerOK b := hv.2.1 b (by simp)
    have hble : b.bottomDepth_m ≤ (lastLayer b tl).bottomDepth_m :=
      ih b hv.tail2 b (by simp)
    rcases List.mem_cons.mp hl with rfl | hl
    · calc l.bottomDepth_m = b.topDepth_m := hadj.1
        _ ≤ b.bottomDepth_m := hbok.1.le
        _ ≤ (lastLayer b tl).bottomDepth_m := hble
    · exact ih b hv.tail2 l hl

/-- C2: on a validated mapping table, a depth strictly beyond the deepest
bottom is extrapolated proportionally from the origin:
`mapped(d) = last.mapped_bottom_cm * d / last.bottomDepth_m` — a global
ratio, not a continuation of the last layer's local slope. -/
theorem mapped_depth_extrapolation (hd : MappingLayer) (tl : List MappingLayer)
    (d : ℚ) (hv : ValidMapping (hd :: tl))
    (h : (lastLayer hd tl).bottomDepth_m < d) :
    calculate_mapped_depth d (hd :: tl) =
      some ((lastLayer hd tl).mapped_bottom_cm * d / (lastLayer hd tl).bottomDepth_m) := by
  have hnone : (hd :: tl).find? (inLayer d) = none := by
    rw [List.find?_eq_none]
    intro l hl
    have hle := bottom_le_lastLayer tl hd hv l hl
    simp [inLayer]
    intro _
    linarith
  have hok : LayerOK hd := hv.2.1 hd (by simp)
  have htop : ¬ d < hd.topDepth_m := by
    push_neg
    have := bottom_le_lastLayer tl hd hv hd (by simp)
    linarith [hok.1]
  unfold calculate_mapped_depth
  rw [hnone]
  simp only
  rw [if_neg htop]

/-- Witness for C2 on the table [0,100]→[0,2], [100,300]→[2,5] at depth 400:
mapped value 5 · 400 / 300 = 20/3. -/
theorem mapped_depth_extrapolation_witness :
    ValidMapping [⟨0, 100, 0, 2⟩, ⟨100, 300, 2, 5⟩] ∧
    calculate_mapped_depth 400 [⟨0, 100, 0, 2⟩, ⟨100, 300, 2, 5⟩] = some (20/3) := by
  have hv : ValidMapping [⟨0, 100, 0, 2⟩, ⟨100, 300, 2, 5⟩] := by
    simp [ValidMapping, LayerOK, Adjacent, List.chain'_cons]
    norm_num
  refine ⟨hv, ?_⟩
  rw [mapped_depth_extrapolation ⟨0, 100, 0, 2⟩ [⟨100, 300, 2, 5⟩] 400 hv
    (by norm_num [lastLayer])]
  norm_num [lastLayer]

/-! ## C3: proportional distribution with a clamped floor -/

theorem assignLayers_thickness (total budget minT : ℚ) :
    ∀ (top : ℚ) (xs : List RawLayer),
      (assignLayers total budget minT top xs).map (fun r => r.mapped_thickness_cm) =
        xs.map (clamped_thickness total budget minT) := by
  intro top xs
  induction xs generalizing top with
  | nil => rfl
  | cons l ls ih => simp [assignLayers, ih]

theorem clamped_eq_max (total budget minT : ℚ) (l : RawLayer) :
    clamped_thickness total budget minT l =
      max (proportional_share total budget l) minT := by
  unfold clamped_thickness
  rcases lt_or_le (proportional_share total budget l) minT with h | h
  · rw [if_pos h, max_eq_right h.le]
  · rw [if_neg (not_lt.mpr h), max_eq_left h]

theorem share_sum (xs : List RawLayer) (budget : ℚ)
    (h : total_actual_thickness xs ≠ 0) :
    (xs.map (proportional_share (total_actual_thickness xs) budget)).sum = budget := by
  have e : xs.map (proportional_share (total_actual_thickness xs) budget) =
      xs.map (fun l => (l.bottomDepth_m - l.topDepth_m) *
        (budget / total_actual_thickness xs)) :=
    List.map_congr_left fun l _ => by unfold proportional_share; ring
  rw [e, List.sum_map_mul_right]
  have : (xs.map fun l => l.bottomDepth_m - l.topDepth_m).sum =
      total_actual_thickness xs := rfl
  rw [this, mul_div_cancel₀ _ h]

/-- C3: under the default configuration (budget 10 cm, floor 0.24 cm) on a
nonempty layer list with positive total actual thickness, the mapping step
assigns every layer `mapped_thickness_cm = max(share, 0.24)` where `share`
is its proportional share of the budget; consequently every mapped thickness
is at least 0.24, the realized total is at least the 10 cm budget, and it
strictly exceeds the budget exactly when some layer's share falls below
0.24. -/
theorem strat_map_thickness_floor (xs : List RawLayer) (hne : xs ≠ [])
    (hpos : 0 < total_actual_thickness xs) :
    ((map_raw_data 10 (6/25) xs).map (fun r => r.mapped_thickness_cm) =
      xs.map (fun l => max (proportional_share (total_actual_thickness xs) 10 l) (6/25))) ∧
    (∀ r ∈ map_raw_data 10 (6/25) xs, (6/25 : ℚ) ≤ r.mapped_thickness_cm) ∧
    (10 ≤ ((map_raw_data 10 (6/25) xs).map (fun r => r.mapped_thickness_cm)).sum) ∧
    ((10 < ((map_raw_data 10 (6/25) xs).map (fun r => r.mapped_thickness_cm)).sum) ↔
      ∃ l ∈ xs, proportional_share (total_actual_thickness xs) 10 l < 6/25) := by
  have e1 : (map_raw_data 10 (6/25) xs).map (fun r => r.mapped_thickness_cm) =
      xs.map (fun l => max (proportional_share (total_actual_thickness xs) 10 l) (6/25)) := by
    rw [map_raw_data, assignLayers_thickness]
    exact List.map_congr_left fun l _ => clamped_eq_max _ _ _ l
  have hsum : (xs.map (proportional_share (total_actual_thickness xs) 10)).sum = 10 :=
    share_sum xs 10 (ne_of_gt hpos)
  refine ⟨e1, ?_, ?_, ?_⟩
  · intro r hr
    have hmem : r.mapped_thickness_cm ∈
        (map_raw_data 10 (6/25) xs).map (fun r => r.mapped_thickness_cm) :=
      List.mem_map_of_mem _ hr
    rw [e1] at hmem
    rcases List.mem_map.mp hmem with ⟨l, _, hl⟩
    rw [← hl]
    exact le_max_right _ _
  · rw [e1]
    have h2 : (xs.map (proportional_share (total_actual_thickness xs) 10)).sum ≤
        (xs.map (fun l =>
          max (proportional_share (total_actual_thickness xs) 10 l) (6/25))).sum :=
      List.sum_le_sum fun l _ => le_max_left _ _
    linarith
  · rw [e1]
    constructor
    · intro hlt
      by_contra hc
      push_neg at hc
      have : xs.map (fun l => max (proportional_share (total_actual_thickness xs) 10 l) (6/25)) =
          xs.map (proportional_share (total_actual_thickness xs) 10) :=
        List.map_congr_left fun l hl => max_eq_left (hc l hl)
      rw [this, hsum] at hlt
      exact lt_irrefl _ hlt
    · intro hex
      calc (10 : ℚ) = (xs.map (proportional_share (total_actual_thickness xs) 10)).sum :=
            hsum.symm
        _ < (xs.map (fun l => max (proportional_share (total_actual_thickness xs) 10 l) (6/25))).sum := by
            refine List.sum_lt_sum _ _ (fun l _ => le_max_left _ _) ?_
            rcases hex with ⟨l, hl, hlt⟩
            exact ⟨l, hl, lt_max_of_lt_right hlt⟩

/-- Witness for C3 on two layers of thickness 1 m and 99 m: the thin layer's
share 0.1 cm clamps to 0.24 cm and the realized total is 10.14 cm. -/
theorem strat_map_thickness_floor_witness :
    ((map_raw_data 10 (6/25) [⟨"A", 0, 1⟩, ⟨"B", 1, 100⟩]).map
        (fun r => r.mapped_thickness_cm) =
      [⟨"A", 0, 1⟩, ⟨"B", 1, 100⟩].map
        (fun l => max (proportional_share
          (total_actual_thickness [⟨"A", 0, 1⟩, ⟨"B", 1, 100⟩]) 10 l) (6/25))) ∧
    (∀ r ∈ map_raw_data 10 (6/25) [⟨"A", 0, 1⟩, ⟨"B", 1, 100⟩],
      (6/25 : ℚ) ≤ r.mapped_thickness_cm) ∧
    (10 ≤ ((map_raw_data 10 (6/25) [⟨"A", 0, 1⟩, ⟨"B", 1, 100⟩]).map
      (fun r => r.mapped_thickness_cm)).sum) ∧
    ((10 < ((map_raw_data 10 (6/25) [⟨"A", 0, 1⟩, ⟨"B", 1, 100⟩]).map
        (fun r => r.mapped_thickness_cm)).sum) ↔
      ∃ l ∈ [(⟨"A", 0, 1⟩ : RawLayer), ⟨"B", 1, 100⟩],
        proportional_share (total_actual_thickness [⟨"A", 0, 1⟩, ⟨"B", 1, 100⟩]) 10 l
          < 6/25) :=
  strat_map_thickness_floor [⟨"A", 0, 1⟩, ⟨"B", 1, 100⟩]
    (List.cons_ne_nil _ _) (by norm_num [total_actual_thickness])

/-! ## C4: continuity validation -/

theorem checkLayers_ok_true (ys : List JLayer) :
    ∀ b, checkLayers ys = .ok b → b = true := by
  induction ys with
  | nil => intro b hb; simp [checkLayers] at hb; simp [hb]
  | cons l ys ih =>
    cases ys with
    | nil =>
      intro b hb
      unfold checkLayers at hb
      split_ifs at hb <;> simp_all
    | cons l2 rest =>
      intro b hb
      unfold checkLayers at hb
      split_ifs at hb <;> first | simp_all | exact ih b hb

theorem checkLayers_iff (ys : List JLayer) :
    checkLayers ys = .ok true ↔
      (∀ l ∈ ys, layerFieldsOK l = true ∧
        l.topDepth_m.getD 0 < l.bottomDepth_m.getD 0) ∧
      List.Chain' (fun a b => a.bottomDepth_m.getD 0 = b.topDepth_m.getD 0) ys := by
  induction ys with
  | nil => simp [checkLayers]
  | cons l ys ih =>
    cases ys with
    | nil =>
      by_cases hf : layerFieldsOK l = true
      · by_cases htb : l.bottomDepth_m.getD 0 ≤ l.topDepth_m.getD 0
        · simp [checkLayers, hf, htb, not_lt.mpr htb]
        · simp [checkLayers, hf, htb, not_le.mp htb]
      · simp [checkLayers, hf]
    | cons l2 rest =>
      by_cases hf : layerFieldsOK l = true
      · by_cases htb : l.bottomDepth_m.getD 0 ≤ l.topDepth_m.getD 0
        · simp [checkLayers, hf, htb, not_lt.mpr htb]
        · by_cases hadj : l.bottomDepth_m.getD 0 = l2.topDepth_m.getD 0
          · rw [show checkLayers (l :: l2 :: rest) = checkLayers (l2 :: rest) by
              conv_lhs => simp only [checkLayers]
              rw [if_neg (by simp [hf]), if_neg htb, if_neg (by simp [hadj])]]
            rw [ih, List.chain'_cons]
            constructor
            · rintro ⟨hall, hchain⟩
              exact ⟨fun x hx => by
                rcases List.mem_cons.mp hx with rfl | hx
                · exact ⟨hf, not_le.mp htb⟩
                · exact hall x hx, hadj, hchain⟩
            · rintro ⟨hall, _, hchain⟩
              exact ⟨fun x hx => hall x (List.mem_cons_of_mem _ hx), hchain⟩
          · rw [show checkLayers (l :: l2 :: rest) =
                .error "continuity failure between adjacent layers" by
              conv_lhs => simp only [checkLayers]
              rw [if_neg (by simp [hf]), if_neg htb, if_pos (by simp [hadj])]]
            simp [List.chain'_cons, hadj]
      · rw [show checkLayers (l :: l2 :: rest) = .error "missing required field" by
          conv_lhs => simp only [checkLayers]
          rw [if_pos (by simp [hf])]]
        simp [hf]

/-- C4: `validate_continuity` errors on an empty list, on a missing required
field, on `top >= bottom`, or on an exact-comparison gap between adjacent
sorted layers, and returns `True` exactly when the sorted list is a gapless
partition whose every layer has all required fields and `top < bottom`. -/
theorem validate_continuity_spec (xs : List JLayer) :
    (∀ b, validate_continuity xs = .ok b → b = true) ∧
    (validate_continuity xs = .ok true ↔
      (xs ≠ [] ∧
        (∀ l ∈ xs, l.name.isSome = true ∧ l.topDepth_m.isSome = true ∧
          l.bottomDepth_m.isSome = true ∧
          l.topDepth_m.getD 0 < l.bottomDepth_m.getD 0) ∧
        List.Chain' (fun a b => a.bottomDepth_m.getD 0 = b.topDepth_m.getD 0)
          (sortLayers xs))) := by
  have hperm : ∀ l, l ∈ sortLayers xs ↔ l ∈ xs := fun l =>
    (List.perm_insertionSort _ xs).mem_iff
  constructor
  · intro b hb
    unfold validate_continuity at hb
    split_ifs at hb
    exact checkLayers_ok_true _ b hb
  · unfold validate_continuity
    split_ifs with h1 h2
    · simp only [List.isEmpty_iff] at h1
      simp [h1]
    · constructor
      · intro h; simp at h
      · rintro ⟨-, hall, -⟩
        have hx : (xs.all fun l => l.topDepth_m.isSome) = true :=
          List.all_eq_true.mpr fun l hl => (hall l hl).2.1
        simp [hx] at h2
    · rw [checkLayers_iff]
      simp only [List.isEmpty_iff] at h1
      constructor
      · rintro ⟨hall, hchain⟩
        refine ⟨h1, fun l hl => ?_, hchain⟩
        rcases hall l ((hperm l).mpr hl) with ⟨hfl, hlt⟩
        simp only [layerFieldsOK, Bool.and_eq_true] at hfl
        exact ⟨hfl.1.1, hfl.1.2, hfl.2, hlt⟩
      · rintro ⟨-, hall, hchain⟩
        refine ⟨fun l hl => ?_, hchain⟩
        rcases hall l ((hperm l).mp hl) with ⟨hn, ht, hb, hlt⟩
        exact ⟨by simp [layerFieldsOK, hn, ht, hb], hlt⟩

/-- Witness for C4 at concrete inputs: a two-layer gapless partition is
accepted, and the spec's gap example `[{0,100},{105,200}]` is rejected. -/
theorem validate_continuity_spec_witness :
    validate_continuity
      [⟨some "Quaternary", some 0, some 100⟩, ⟨some "Tertiary", some 100, some 200⟩] =
      .ok true ∧
    validate_continuity
      [⟨some "Quaternary", some 0, some 100⟩, ⟨some "Tertiary", some 105, some 200⟩] ≠
      .ok true := by
  constructor
  · exact (validate_continuity_spec _).2.mpr
      ⟨by simp, by
        intro l hl
        rcases List.mem_cons.mp hl with rfl | hl
        · norm_num
        · rcases List.mem_cons.mp hl with rfl | hl
          · norm_num
          · simp at hl, by
        norm_num [sortLayers, List.insertionSort, List.orderedInsert,
          List.chain'_cons]⟩
  · intro h
    rcases ((validate_continuity_spec _).2.mp h) with ⟨-, -, hchain⟩
    norm_num [sortLayers, List.insertionSort, List.orderedInsert,
      List.chain'_cons] at hchain

/-! ## C9: closure of the build-arc solve branches over the reals -/

/-- C9: for `0 < θ ≤ π/2` (so `sin θ ≠ 0` and `sin θ ≠ θ`) and `k < A`, the
three solve branches of the {kickoff, targetA, targetA_vertical} triple are
mutually inverse over exact real arithmetic: computing the vertical depth
from kickoff and targetA and then reconstructing the kickoff (resp. the
targetA) recovers it exactly, and the round trips through the other branches
likewise reproduce the original member. -/
theorem triple_closure (θ k A V : ℝ) (h0 : 0 < θ) (h90 : θ ≤ Real.pi / 2)
    (hkA : k < A) :
    solve_kickoff θ (Real.sin θ) A (solve_vertical θ (Real.sin θ) k A) = k ∧
    solve_targetA θ (Real.sin θ) k (solve_vertical θ (Real.sin θ) k A) = A ∧
    solve_vertical θ (Real.sin θ) k (solve_targetA θ (Real.sin θ) k V) = V ∧
    solve_vertical θ (Real.sin θ) (solve_kickoff θ (Real.sin θ) A V) A = V := by
  have hpi : θ < Real.pi := lt_of_le_of_lt h90 (by linarith [Real.pi_pos])
  have hs : 0 < Real.sin θ := Real.sin_pos_of_pos_of_lt_pi h0 hpi
  have hslt : Real.sin θ < θ := Real.sin_lt h0
  have h1 : Real.sin θ ≠ 0 := ne_of_gt hs
  have h2 : θ ≠ 0 := ne_of_gt h0
  have h3 : Real.sin θ - θ ≠ 0 := sub_ne_zero.mpr (ne_of_lt hslt)
  refine ⟨?_, ?_, ?_, ?_⟩ <;>
    (simp only [solve_kickoff, solve_vertical, solve_targetA]; field_simp; ring)

/-- Witness for C9 at `θ = π/2`, `k = 0`, `A = 1`, `V = 5`. -/
theorem triple_closure_witness :
    (0 : ℝ) < Real.pi / 2 ∧ Real.pi / 2 ≤ Real.pi / 2 ∧ (0 : ℝ) < 1 ∧
    (solve_kickoff (Real.pi / 2) (Real.sin (Real.pi / 2)) 1
        (solve_vertical (Real.pi / 2) (Real.sin (Real.pi / 2)) 0 1) = 0 ∧
      solve_targetA (Real.pi / 2) (Real.sin (Real.pi / 2)) 0
        (solve_vertical (Real.pi / 2) (Real.sin (Real.pi / 2)) 0 1) = 1 ∧
      solve_vertical (Real.pi / 2) (Real.sin (Real.pi / 2)) 0
        (solve_targetA (Real.pi / 2) (Real.sin (Real.pi / 2)) 0 5) = 5 ∧
      solve_vertical (Real.pi / 2) (Real.sin (Real.pi / 2))
        (solve_kickoff (Real.pi / 2) (Real.sin (Real.pi / 2)) 1 5) 1 = 5) :=
  ⟨by positivity, le_refl _, one_pos,
    triple_closure (Real.pi / 2) 0 1 5 (by positivity) (le_refl _) one_pos⟩

end WellStructure
